import Mathlib

/-!
Verification of the identification-history resolution core of
`inat-curated-species-list`.

The definitions below are a shallow embedding of the TypeScript source
(`parse-data-files.ts` and `packages/tools/src/helpers.ts`):

* `getTaxonomy`               — the ancestor-chain rank projection;
* `getUniqueItems`            — `arr.filter((v, i, a) => a.indexOf(v) === i)`;
* `getConfirmationDateAccountingForTaxonChanges`
                              — the taxon-change resolver (backward walk over
                                the identification history plus the forward
                                scan over the collected curator entries);
* `identLoop` / `processObservation` / `parseDataFile`
                              — the per-observation scanner;
* `parseDataFiles`            — the aggregator over all pages.

JavaScript `undefined` values are modelled with `Option`, object maps with
association lists (`ObjMap`), `process.exit(1)` and data-access crashes with
an `Except RunError` result (a fatal outcome produces no partial output,
exactly as a process abort does), and date strings with an abstract `Date`
carrying the two projections the code uses (`getFullYear`, `getTime`).
-/

namespace InatCurated

/-- An ISO date string, abstracted to the two projections the source reads
from it: `new Date(s).getFullYear()` and `new Date(s).getTime()`. -/
structure Date where
  year : Int
  unix : Int
  deriving DecidableEq, Repr

/-- A user record (`user.login`, `user.name`, `user.id`). -/
structure User where
  login : String
  name : String
  id : Nat
  deriving DecidableEq, Repr

/-- One entry of a taxon's ancestor chain (`INatTaxonAncestor`). -/
structure INatTaxonAncestor where
  id : Nat
  name : String
  rank : String
  deriving DecidableEq, Repr

/-- A taxon-change record attached to an identification. -/
structure TaxonChange where
  id : Nat
  type : String
  deriving DecidableEq, Repr

/-- A taxon: identifier, display name, rank and root-to-parent ancestors. -/
structure Taxon where
  id : Nat
  name : String
  rank : String
  ancestors : List INatTaxonAncestor
  deriving DecidableEq, Repr

/-- One identification on an observation. -/
structure Identification where
  user : User
  taxon : Taxon
  taxon_id : Nat
  current : Bool
  created_at : Date
  taxon_change : Option TaxonChange
  deriving DecidableEq, Repr

/-- An observation as read from a data packet (`observed_on_details` may be
absent; `created_at_details.date` is collapsed into a `Date`). -/
structure Observation where
  id : Nat
  user : User
  observed_on_details : Option Date
  created_at_details : Date
  identifications : List Identification
  deriving DecidableEq, Repr

/-- One row pushed into the shared `taxonChangeData` sink. -/
structure TaxonChangeData where
  id : Nat
  previousSpeciesName : String
  newSpeciesName : String
  yearChanged : Int
  taxonChangeId : Nat
  deriving DecidableEq, Repr

/-- The resolver's `HistoricalCuratorObsIdentification` record. -/
structure HistEntry where
  taxonId : Nat
  confirmationDate : Date
  isTaxonChange : Bool
  deriving DecidableEq, Repr

/-- The resolver's return value.  `originalConfirmationDate` is `none` when
the TypeScript variable is left `undefined`; `taxonChangeData` holds the rows
the call pushed into the shared sink. -/
structure ResolveResult where
  deprecatedTaxonIds : List Nat
  originalConfirmationDate : Option Date
  taxonChangeData : List TaxonChangeData
  deriving DecidableEq, Repr

/-- Outcome of one resolver call: `fatal` models `process.exit(1)` on an
unknown taxon-change type. -/
inductive ResolveOutcome where
  | fatal : ResolveOutcome
  | ok : ResolveResult → ResolveOutcome
  deriving DecidableEq, Repr

/-- The ways a run can abort: the deliberate `process.exit(1)` on an unknown
taxon-change type, or a TypeError from reading a property of `undefined`. -/
inductive RunError where
  | unknownTaxonChangeType : RunError
  | invalidAccess : RunError
  deriving DecidableEq, Repr

/-! ## JavaScript object maps -/

/-- A JavaScript object used as a map, modelled as an association list in
insertion order. -/
abbrev ObjMap (K V : Type) := List (K × V)

namespace ObjMap

/-- Property read `m[k]`, `undefined` as `none`. -/
def find? [BEq K] (m : ObjMap K V) (k : K) : Option V :=
  (List.find? (fun p => p.1 == k) m).map Prod.snd

/-- Property write `m[k] = v`: overwrite in place, or append a new key. -/
def set [BEq K] : ObjMap K V → K → V → ObjMap K V
  | [], k, v => [(k, v)]
  | p :: rest, k, v => if p.1 == k then (k, v) :: rest else p :: set rest k v

/-- In-place update of the value stored under `k`. -/
def modify [BEq K] (m : ObjMap K V) (k : K) (f : V → V) : ObjMap K V :=
  m.map (fun p => if p.1 == k then (p.1, f p.2) else p)

/-- `delete m[k]`. -/
def erase [BEq K] (m : ObjMap K V) (k : K) : ObjMap K V :=
  m.filter (fun p => !(p.1 == k))

end ObjMap

/-- The `rank → name` projection built by `getTaxonomy`. -/
abbrev TaxonomyMap := ObjMap String String

/-! ## Helpers (`helpers.ts`) -/

/-- `getTaxonomy`: fold the ancestor chain, keeping the ranks of interest. -/
def getTaxonomy (ancestors : List INatTaxonAncestor) (taxonsToReturn : List String) :
    TaxonomyMap :=
  ancestors.foldl
    (fun acc curr =>
      if taxonsToReturn.contains curr.rank then ObjMap.set acc curr.rank curr.name else acc)
    []

/-- JavaScript `Array.prototype.filter` with the element index supplied to
the callback. -/
def filterWithIndex (p : Nat → α → Bool) : Nat → List α → List α
  | _, [] => []
  | i, a :: l => if p i a then a :: filterWithIndex p (i + 1) l else filterWithIndex p (i + 1) l

/-- `getUniqueItems`: `arr.filter((value, index, array) => array.indexOf(value) === index)`. -/
def getUniqueItems (arr : List Nat) : List Nat :=
  filterWithIndex (fun index value => arr.indexOf value == index) 0 arr

/-! ## The taxon-change resolver -/

/-- The closed set of recognized taxon-change type tags. -/
def knownTaxonChangeTypes : List String := ["TaxonSwap", "TaxonSplit", "TaxonMerge"]

/-- The backward walk (`for (let i = curatorIdentificationIndex; i >= 0; i--)`),
processing the identifications in walk order (newest first).  The walk starts
at `curatorIdentificationIndex`, whose identification always matches
`targetCurator` (the target is defined as that identification's own login),
so the source's `i !== curatorIdentificationIndex` test holds exactly for the
non-first elements of the traversal; `isStart` tracks that position.  Returns
the rows pushed into the `taxonChangeData` sink and the collected
`curatorObservations` history, both in push order. -/
def walkLoop (obsId : Nat) (targetCurator : String) :
    Bool → Identification → List Identification → List TaxonChangeData × List HistEntry
  | _, _, [] => ([], [])
  | isStart, lastCuratorObservation, curr :: rest =>
    if curr.user.login ≠ targetCurator then
      walkLoop obsId targetCurator false lastCuratorObservation rest
    else if isStart then
      let (evs, hist) := walkLoop obsId targetCurator false lastCuratorObservation rest
      (evs, ⟨curr.taxon_id, curr.created_at, curr.taxon_change.isSome⟩ :: hist)
    else
      let ev : TaxonChangeData :=
        { id := obsId
          previousSpeciesName := curr.taxon.name
          newSpeciesName := lastCuratorObservation.taxon.name
          yearChanged := lastCuratorObservation.created_at.year
          -- `lastCuratorObservation.taxon_change.id`: the pointer invariantly
          -- carries a change record here, so the default is never read.
          taxonChangeId := (lastCuratorObservation.taxon_change.map TaxonChange.id).getD 0 }
      let lco := if curr.taxon_change.isSome then curr else lastCuratorObservation
      let (evs, hist) := walkLoop obsId targetCurator false lco rest
      (ev :: evs, ⟨curr.taxon_id, curr.created_at, curr.taxon_change.isSome⟩ :: hist)

/-- The forward scan over the collected curator observations.  The flag marks
index 0 (the source's `i !== 0` test); every later entry contributes its taxon
id before the stop test, and the scan breaks at the first entry that is not a
taxon change, taking its confirmation date. -/
def scanLoop : List HistEntry → Bool → List Nat × Option Date
  | [], _ => ([], none)
  | e :: rest, isFirst =>
    let dep : List Nat := if isFirst then [] else [e.taxonId]
    if e.isTaxonChange = false then
      (dep, some e.confirmationDate)
    else
      let (d, o) := scanLoop rest false
      (dep ++ d, o)

/-- `getConfirmationDateAccountingForTaxonChanges`.  `none` models the
TypeError a JavaScript run would raise on an out-of-range
`curatorIdentificationIndex` (the callers only pass valid indices). -/
def getConfirmationDateAccountingForTaxonChanges (curatorIdentificationIndex : Nat)
    (obs : Observation) : Option ResolveOutcome :=
  match obs.identifications.get? curatorIdentificationIndex with
  | none => none
  | some ident =>
    match ident.taxon_change with
    | none => some (.ok ⟨[], some ident.created_at, []⟩)
    | some tc =>
      if knownTaxonChangeTypes.contains tc.type then
        let (events, curatorObservations) :=
          walkLoop obs.id ident.user.login true ident
            ((obs.identifications.take (curatorIdentificationIndex + 1)).reverse)
        let (deprecatedTaxonIds, originalConfirmationDate) := scanLoop curatorObservations true
        some (.ok ⟨deprecatedTaxonIds, originalConfirmationDate, events⟩)
      else
        some .fatal

/-! ## The observation scanner (`parseDataFile`) -/

/-- One record appended to a species aggregate's `observations` list.
`confirmationDateUnix` is `new Date(originalConfirmationDate).getTime()`,
which is NaN (`none`) when the date was left `undefined`. -/
structure ObservationRecord where
  observationId : Nat
  dateObserved : Option Date
  observationCreatedAt : Date
  confirmationDate : Option Date
  confirmationDateUnix : Option Int
  curator : String
  observer : User
  deriving DecidableEq, Repr

/-- One `processedData` entry (the species aggregate). -/
structure SpeciesData where
  speciesName : Option String
  observations : List ObservationRecord
  taxonomy : Option TaxonomyMap
  deriving DecidableEq, Repr

/-- The three accumulators threaded through the run. -/
structure AggState where
  processedData : ObjMap Nat SpeciesData
  taxonsToRemove : List Nat
  taxonChangeData : List TaxonChangeData
  deriving DecidableEq, Repr

/-- Resolution of a qualifying identification to the species id and name it
is aggregated under: a subspecies folds into the last entry of its ancestor
chain (`none` models the TypeError on an empty chain), any other rank uses
the taxon's own id and name. -/
def resolveSpeciesIdName (ident : Identification) : Option (Nat × String) :=
  if ident.taxon.rank == "subspecies" then
    ident.taxon.ancestors.getLast?.map (fun speciesAncestor => (speciesAncestor.id, speciesAncestor.name))
  else
    some (ident.taxon.id, ident.taxon.name)

/-- The body run for the first identification that passes all three filters:
ensure the aggregate entry exists, invoke the resolver, extend the removal
list and the change sink, overwrite `speciesName`, append the observation
record, and fill in the taxonomy if it has not been computed yet.  Returns
the state together with the `curatorTaxonId` the loop assigned. -/
def handleQualifying (taxonsToReturn : List String) (obs : Observation) (i : Nat)
    (ident : Identification) (st : AggState) : Except RunError (AggState × Option Nat) :=
  match resolveSpeciesIdName ident with
  | none => .error .invalidAccess
  | some (curatorTaxonId, speciesName) =>
    let pd1 :=
      if (ObjMap.find? st.processedData curatorTaxonId).isNone then
        ObjMap.set st.processedData curatorTaxonId ⟨none, [], none⟩
      else
        st.processedData
    match getConfirmationDateAccountingForTaxonChanges i obs with
    | none => .error .invalidAccess
    | some .fatal => .error .unknownTaxonChangeType
    | some (.ok r) =>
      let obsRecord : ObservationRecord :=
        { observationId := obs.id
          dateObserved := obs.observed_on_details
          observationCreatedAt := obs.created_at_details
          confirmationDate := r.originalConfirmationDate
          confirmationDateUnix := r.originalConfirmationDate.map Date.unix
          curator := ident.user.login
          observer := obs.user }
      let pd2 := ObjMap.modify pd1 curatorTaxonId
        (fun entry => { entry with
          speciesName := some speciesName
          observations := entry.observations ++ [obsRecord] })
      let pd3 := ObjMap.modify pd2 curatorTaxonId
        (fun entry =>
          if entry.taxonomy.isNone then
            { entry with taxonomy := some (getTaxonomy ident.taxon.ancestors taxonsToReturn) }
          else entry)
      .ok ({ processedData := pd3
             taxonsToRemove := st.taxonsToRemove ++ r.deprecatedTaxonIds
             taxonChangeData := st.taxonChangeData ++ r.taxonChangeData },
           some curatorTaxonId)

/-- The identification loop of `parseDataFile`: skip identifications that are
not current, not by a recognized curator, or not at species/subspecies rank,
and run `handleQualifying` (then break) on the first one that qualifies. -/
def identLoop (curators taxonsToReturn : List String) (obs : Observation) :
    List (Nat × Identification) → AggState → Except RunError (AggState × Option Nat)
  | [], st => .ok (st, none)
  | (i, ident) :: rest, st =>
    if ident.current = false then
      identLoop curators taxonsToReturn obs rest st
    else if curators.contains ident.user.login = false then
      identLoop curators taxonsToReturn obs rest st
    else if ident.taxon.rank ≠ "species" ∧ ident.taxon.rank ≠ "subspecies" then
      identLoop curators taxonsToReturn obs rest st
    else
      handleQualifying taxonsToReturn obs i ident st

/-- Processing of one observation: run the identification loop and then the
defensive cleanup (`if (curatorTaxonId && !processedData[curatorTaxonId].observations.length)`;
a JavaScript number is truthy exactly when it is nonzero). -/
def processObservation (curators taxonsToReturn : List String) (st : AggState)
    (obs : Observation) : Except RunError AggState :=
  match identLoop curators taxonsToReturn obs obs.identifications.enum st with
  | .error e => .error e
  | .ok (st', curatorTaxonId?) =>
    match curatorTaxonId? with
    | none => .ok st'
    | some curatorTaxonId =>
      if curatorTaxonId ≠ 0 then
        match ObjMap.find? st'.processedData curatorTaxonId with
        | none => .error .invalidAccess
        | some entry =>
          if entry.observations.length = 0 then
            .ok { st' with processedData := ObjMap.erase st'.processedData curatorTaxonId }
          else
            .ok st'
      else
        .ok st'

/-- `parseDataFile` over one already-parsed page (`content.results`). -/
def parseDataFile (curators taxonsToReturn : List String) (results : List Observation)
    (st : AggState) : Except RunError AggState :=
  results.foldlM (processObservation curators taxonsToReturn) st

/-! ## The aggregator (`parseDataFiles`) -/

/-- One value of the change ledger. -/
structure ChangeLedgerEntry where
  newSpeciesName : String
  taxonChangeId : Nat
  deriving DecidableEq, Repr

/-- The ledger keyed by year of change, then by prior species name. -/
abbrev ChangeLedger := ObjMap Int (ObjMap String ChangeLedgerEntry)

/-- One step of the fold building `taxonChangeDataGroupedByYear`: ensure the
year bucket exists, then record the row only if the prior species name is not
already present (first occurrence wins). -/
def groupStep (acc : ChangeLedger) (row : TaxonChangeData) : ChangeLedger :=
  match ObjMap.find? acc row.yearChanged with
  | none =>
    ObjMap.set acc row.yearChanged
      (ObjMap.set [] row.previousSpeciesName ⟨row.newSpeciesName, row.taxonChangeId⟩)
  | some yearMap =>
    if (ObjMap.find? yearMap row.previousSpeciesName).isSome then
      acc
    else
      ObjMap.set acc row.yearChanged
        (ObjMap.set yearMap row.previousSpeciesName ⟨row.newSpeciesName, row.taxonChangeId⟩)

/-- The fold building `taxonChangeDataGroupedByYear`. -/
def groupChangeData (rows : List TaxonChangeData) : ChangeLedger :=
  rows.foldl groupStep []

/-- Lookup of a (year, prior species name) pair in the change ledger. -/
def ledgerFind (m : ChangeLedger) (y : Int) (p : String) : Option ChangeLedgerEntry :=
  (ObjMap.find? m y).bind (fun yearMap => ObjMap.find? yearMap p)

/-- The page loop of `parseDataFiles`, threading the shared accumulators over
every page in order, starting from empty collectors. -/
def runAllPages (pages : List (List Observation)) (curators taxon : List String) :
    Except RunError AggState :=
  pages.foldlM (fun st page => parseDataFile curators taxon page st) ⟨[], [], []⟩

/-- `parseDataFiles`: process every page, then delete the deduplicated
superseded taxon ids from the aggregate and fold the change sink into the
year/prior-name ledger. -/
def parseDataFiles (pages : List (List Observation)) (curators taxon : List String) :
    Except RunError (ObjMap Nat SpeciesData × ChangeLedger) :=
  match runAllPages pages curators taxon with
  | .error e => .error e
  | .ok st =>
    let items := getUniqueItems st.taxonsToRemove
    let newAdditions := items.foldl (fun m taxonId => ObjMap.erase m taxonId) st.processedData
    let taxonChangeDataGroupedByYear := groupChangeData st.taxonChangeData
    .ok (newAdditions, taxonChangeDataGroupedByYear)

/-! ## Lemmas about `ObjMap` -/

namespace ObjMap

theorem find?_nil [BEq K] (k : K) : find? ([] : ObjMap K V) k = none := rfl

theorem find?_cons [BEq K] (p : K × V) (m : ObjMap K V) (k : K) :
    find? (p :: m) k = if p.1 == k then some p.2 else find? m k := by
  by_cases h : p.1 == k
  · simp [find?, List.find?_cons_of_pos _ h, h]
  · simp [find?, List.find?_cons_of_neg _ h, h]

theorem set_nil [BEq K] (k : K) (v : V) : set ([] : ObjMap K V) k v = [(k, v)] := rfl

theorem set_cons [BEq K] (p : K × V) (m : ObjMap K V) (k : K) (v : V) :
    set (p :: m) k v = if p.1 == k then (k, v) :: m else p :: set m k v := rfl

theorem modify_nil [BEq K] (k : K) (f : V → V) : modify ([] : ObjMap K V) k f = [] := rfl

theorem modify_cons [BEq K] (p : K × V) (m : ObjMap K V) (k : K) (f : V → V) :
    modify (p :: m) k f = (if p.1 == k then (p.1, f p.2) else p) :: modify m k f := rfl

theorem erase_nil [BEq K] (k : K) : erase ([] : ObjMap K V) k = [] := rfl

theorem erase_cons [BEq K] (p : K × V) (m : ObjMap K V) (k : K) :
    erase (p :: m) k = if p.1 == k then erase m k else p :: erase m k := by
  by_cases h : p.1 == k <;> simp [erase, List.filter_cons, h]

theorem find?_set_self [BEq K] [LawfulBEq K] (m : ObjMap K V) (k : K) (v : V) :
    find? (set m k v) k = some v := by
  induction m with
  | nil => simp [set_nil, find?_cons]
  | cons p rest ih =>
    by_cases h : p.1 == k
    · simp [set_cons, h, find?_cons]
    · simp [set_cons, h, find?_cons, ih]

theorem find?_set_ne [BEq K] [LawfulBEq K] (m : ObjMap K V) (k k' : K) (v : V)
    (hne : k' ≠ k) : find? (set m k v) k' = find? m k' := by
  have hkk : (k == k') = false := by
    simp only [beq_eq_false_iff_ne, ne_eq]
    exact fun h => hne h.symm
  induction m with
  | nil => simp [set_nil, find?_cons, hkk, find?_nil]
  | cons p rest ih =>
    by_cases h : p.1 == k
    · have hp : p.1 = k := by simpa using h
      have hp' : (p.1 == k') = false := by
        simp only [hp, beq_eq_false_iff_ne, ne_eq]
        exact fun h => hne h.symm
      simp [set_cons, h, find?_cons, hkk, hp']
    · simp only [set_cons, h, if_false, find?_cons]
      by_cases h2 : p.1 == k'
      · simp [find?_cons, h2]
      · simp [find?_cons, h2, ih]

theorem find?_modify_self [BEq K] [LawfulBEq K] (m : ObjMap K V) (k : K) (f : V → V) :
    find? (modify m k f) k = (find? m k).map f := by
  induction m with
  | nil => simp [modify_nil, find?_nil]
  | cons p rest ih =>
    by_cases h : p.1 == k
    · simp [modify_cons, h, find?_cons]
    · simp [modify_cons, h, find?_cons, ih]

theorem find?_modify_ne [BEq K] [LawfulBEq K] (m : ObjMap K V) (k k' : K) (f : V → V)
    (hne : k' ≠ k) : find? (modify m k f) k' = find? m k' := by
  induction m with
  | nil => simp [modify_nil]
  | cons p rest ih =>
    by_cases h : p.1 == k
    · have hp : p.1 = k := by simpa using h
      have hp' : (p.1 == k') = false := by
        simp only [hp, beq_eq_false_iff_ne, ne_eq]
        exact fun h => hne h.symm
      simp [modify_cons, h, find?_cons, hp', ih]
    · simp only [modify_cons, h, if_false, find?_cons]
      by_cases h2 : p.1 == k'
      · simp [find?_cons, h2]
      · simp [find?_cons, h2, ih]

theorem find?_erase_self [BEq K] [LawfulBEq K] (m : ObjMap K V) (k : K) :
    find? (erase m k) k = none := by
  induction m with
  | nil => simp [erase_nil, find?_nil]
  | cons p rest ih =>
    by_cases h : p.1 == k
    · simp [erase_cons, h, ih]
    · simp [erase_cons, h, find?_cons, ih]

theorem find?_erase_ne [BEq K] [LawfulBEq K] (m : ObjMap K V) (k k' : K)
    (hne : k' ≠ k) : find? (erase m k) k' = find? m k' := by
  induction m with
  | nil => simp [erase_nil]
  | cons p rest ih =>
    by_cases h : p.1 == k
    · have hp : p.1 = k := by simpa using h
      have hp' : (p.1 == k') = false := by
        simp only [hp, beq_eq_false_iff_ne, ne_eq]
        exact fun h => hne h.symm
      simp [erase_cons, h, find?_cons, hp', ih]
    · simp only [erase_cons, h, if_false, find?_cons]
      by_cases h2 : p.1 == k'
      · simp [find?_cons, h2]
      · simp [find?_cons, h2, ih]

theorem find?_set_isSome [BEq K] [LawfulBEq K] (m : ObjMap K V) (k k' : K) (v : V)
    (h : (find? (set m k v) k').isSome = true) :
    k' = k ∨ (find? m k').isSome = true := by
  by_cases hk : k' = k
  · exact Or.inl hk
  · rw [find?_set_ne m k k' v hk] at h
    exact Or.inr h

theorem find?_foldl_erase [BEq K] [LawfulBEq K] [DecidableEq K]
    (l : List K) (m : ObjMap K V) (k : K) :
    find? (l.foldl (fun acc x => erase acc x) m) k =
      if k ∈ l then none else find? m k := by
  induction l generalizing m with
  | nil => simp
  | cons x rest ih =>
    simp only [List.foldl_cons, ih, List.mem_cons]
    by_cases hx : k = x
    · subst hx
      by_cases hr : k ∈ rest <;> simp [hr, find?_erase_self]
    · by_cases hr : k ∈ rest <;> simp [hr, hx, find?_erase_ne m x k hx]

end ObjMap

/-! ## Characterization of the forward scan -/

/-- The first non-change entry of a collected history list. -/
def firstNonChangeIdx (l : List HistEntry) : Nat :=
  l.findIdx (fun e => !e.isTaxonChange)

theorem scanLoop_false_eq (l : List HistEntry) :
    scanLoop l false =
      ((l.take (firstNonChangeIdx l + 1)).map (fun e => e.taxonId),
       (l.get? (firstNonChangeIdx l)).map (fun e => e.confirmationDate)) := by
  induction l with
  | nil => simp [scanLoop, firstNonChangeIdx]
  | cons e rest ih =>
    by_cases h : e.isTaxonChange
    · have hfi : firstNonChangeIdx (e :: rest) = firstNonChangeIdx rest + 1 := by
        simp [firstNonChangeIdx, List.findIdx_cons, h]
      simp [scanLoop, h, ih, hfi, List.take_succ_cons, List.get?_cons_succ]
    · have hfi : firstNonChangeIdx (e :: rest) = 0 := by
        simp [firstNonChangeIdx, List.findIdx_cons, h]
      have hb : e.isTaxonChange = false := by simpa using h
      simp [scanLoop, hb, hfi, List.take_succ_cons, List.get?_cons_zero]

theorem scanLoop_true_eq (l : List HistEntry) :
    scanLoop l true =
      (((l.take (firstNonChangeIdx l + 1)).drop 1).map (fun e => e.taxonId),
       (l.get? (firstNonChangeIdx l)).map (fun e => e.confirmationDate)) := by
  cases l with
  | nil => simp [scanLoop, firstNonChangeIdx]
  | cons e rest =>
    by_cases h : e.isTaxonChange
    · have hfi : firstNonChangeIdx (e :: rest) = firstNonChangeIdx rest + 1 := by
        simp [firstNonChangeIdx, List.findIdx_cons, h]
      rw [hfi]
      have hsf := scanLoop_false_eq rest
      simp only [scanLoop, h, if_true, hsf, List.take_succ_cons, List.get?_cons_succ,
        List.drop_succ_cons, List.drop_zero, Bool.true_eq_false, if_false, List.nil_append]
    · have hfi : firstNonChangeIdx (e :: rest) = 0 := by
        simp [firstNonChangeIdx, List.findIdx_cons, h]
      have hb : e.isTaxonChange = false := by simpa using h
      simp [scanLoop, hb, hfi, List.take_succ_cons, List.get?_cons_zero]

theorem firstNonChangeIdx_of_all_change (l : List HistEntry)
    (h : ∀ e ∈ l, e.isTaxonChange = true) : firstNonChangeIdx l = l.length := by
  rw [firstNonChangeIdx, List.findIdx_eq_length]
  intro e he
  simp [h e he]

/-! ## Characterization of the backward walk -/

/-- The value of the "last curator observation" pointer after the walk has
processed a list of matched identifications: the latest one among them that
carries a taxon-change record, or the initial pointer if none does. -/
def lcoAfter (lco : Identification) (l : List Identification) : Identification :=
  l.foldl (fun acc curr => if curr.taxon_change.isSome then curr else acc) lco

/-- Proof-side recursive description of the rows the walk pushes into the
change sink: one row per matched identification, relative to the evolving
"last curator observation" pointer. -/
def chainEvents (obsId : Nat) : Identification → List Identification → List TaxonChangeData
  | _, [] => []
  | lco, curr :: rest =>
    { id := obsId
      previousSpeciesName := curr.taxon.name
      newSpeciesName := lco.taxon.name
      yearChanged := lco.created_at.year
      taxonChangeId := (lco.taxon_change.map TaxonChange.id).getD 0 } ::
    chainEvents obsId (if curr.taxon_change.isSome then curr else lco) rest

theorem walkLoop_false_events (obsId : Nat) (target : String) :
    ∀ (l : List Identification) (lco : Identification),
      (walkLoop obsId target false lco l).1 =
        chainEvents obsId lco (l.filter (fun x => x.user.login == target)) := by
  intro l
  induction l with
  | nil => intro lco; simp [walkLoop, chainEvents]
  | cons curr rest ih =>
    intro lco
    by_cases h : curr.user.login = target
    · have hb : (curr.user.login == target) = true := by simp [h]
      rcases hw : walkLoop obsId target false
          (if curr.taxon_change.isSome then curr else lco) rest with ⟨evs, hist⟩
      have hevs : evs = chainEvents obsId (if curr.taxon_change.isSome then curr else lco)
          (rest.filter (fun x => x.user.login == target)) := by
        have := ih (if curr.taxon_change.isSome then curr else lco)
        rw [hw] at this
        exact this
      simp [walkLoop, h, hw, List.filter_cons, hb, chainEvents, hevs]
    · have hb : (curr.user.login == target) = false := by simpa using h
      simp [walkLoop, h, List.filter_cons, hb, ih]

theorem walkLoop_start_events (obsId : Nat) (target : String) (lco start : Identification)
    (rest : List Identification) (h : start.user.login = target) :
    (walkLoop obsId target true lco (start :: rest)).1 =
      (walkLoop obsId target false lco rest).1 := by
  rcases hw : walkLoop obsId target false lco rest with ⟨evs, hist⟩
  simp [walkLoop, h, hw]

theorem chainEvents_length (obsId : Nat) :
    ∀ (l : List Identification) (lco : Identification),
      (chainEvents obsId lco l).length = l.length := by
  intro l
  induction l with
  | nil => intro lco; simp [chainEvents]
  | cons curr rest ih => intro lco; simp [chainEvents, ih]

theorem chainEvents_get? (obsId : Nat) :
    ∀ (l : List Identification) (lco : Identification) (j : Nat),
      (chainEvents obsId lco l).get? j =
        (l.get? j).map (fun curr =>
          { id := obsId
            previousSpeciesName := curr.taxon.name
            newSpeciesName := (lcoAfter lco (l.take j)).taxon.name
            yearChanged := (lcoAfter lco (l.take j)).created_at.year
            taxonChangeId :=
              ((lcoAfter lco (l.take j)).taxon_change.map TaxonChange.id).getD 0 }) := by
  intro l
  induction l with
  | nil => intro lco j; simp [chainEvents]
  | cons curr rest ih =>
    intro lco j
    cases j with
    | zero => simp [chainEvents, lcoAfter, List.get?_cons_zero]
    | succ j' =>
      simp only [chainEvents, List.get?_cons_succ, ih, List.take_succ_cons, lcoAfter,
        List.foldl_cons]

theorem lcoAfter_all_change :
    ∀ (l : List Identification) (lco : Identification),
      (∀ x ∈ l, x.taxon_change.isSome = true) →
      lcoAfter lco l = l.getLast?.getD lco := by
  intro l
  induction l with
  | nil => intro lco _; simp [lcoAfter]
  | cons x rest ih =>
    intro lco hall
    have hx : x.taxon_change.isSome = true := hall x (List.mem_cons_self _ _)
    have step : lcoAfter lco (x :: rest) = lcoAfter x rest := by
      simp [lcoAfter, List.foldl_cons, hx]
    rw [step, ih x (fun y hy => hall y (List.mem_cons_of_mem _ hy))]
    cases rest with
    | nil => simp
    | cons y t =>
      rw [List.getLast?_cons_cons]
      have : (y :: t).getLast?.isSome = true := List.getLast?_isSome.mpr (by simp)
      rcases hgl : (y :: t).getLast? with _ | z
      · rw [hgl] at this; simp at this
      · simp

theorem getLast?_take_succ (l : List Identification) (j : Nat) (hj : j < l.length) :
    (l.take (j + 1)).getLast? = l.get? j := by
  have h1 : l.take (j + 1) = (l.take j).concat l[j] := (List.take_concat_get l j hj).symm
  rw [h1, List.concat_eq_append, List.getLast?_concat, List.get?_eq_getElem?,
    List.getElem?_eq_getElem hj]

/-! ## Unfolding the resolver -/

theorem resolver_of_invalid (obs : Observation) (ci : Nat)
    (h : obs.identifications.get? ci = none) :
    getConfirmationDateAccountingForTaxonChanges ci obs = none := by
  simp only [getConfirmationDateAccountingForTaxonChanges, h]

theorem resolver_of_no_change (obs : Observation) (ci : Nat) (ident : Identification)
    (h : obs.identifications.get? ci = some ident) (hnc : ident.taxon_change = none) :
    getConfirmationDateAccountingForTaxonChanges ci obs =
      some (.ok ⟨[], some ident.created_at, []⟩) := by
  simp only [getConfirmationDateAccountingForTaxonChanges, h, hnc]

theorem resolver_of_unknown_change (obs : Observation) (ci : Nat) (ident : Identification)
    (tc : TaxonChange) (h : obs.identifications.get? ci = some ident)
    (hc : ident.taxon_change = some tc)
    (ht : knownTaxonChangeTypes.contains tc.type = false) :
    getConfirmationDateAccountingForTaxonChanges ci obs = some .fatal := by
  simp only [getConfirmationDateAccountingForTaxonChanges, h, hc, ht]
  simp

theorem resolver_of_known_change (obs : Observation) (ci : Nat) (ident : Identification)
    (tc : TaxonChange) (h : obs.identifications.get? ci = some ident)
    (hc : ident.taxon_change = some tc)
    (ht : knownTaxonChangeTypes.contains tc.type = true) :
    getConfirmationDateAccountingForTaxonChanges ci obs =
      some (.ok
        ⟨(scanLoop (walkLoop obs.id ident.user.login true ident
            ((obs.identifications.take (ci + 1)).reverse)).2 true).1,
         (scanLoop (walkLoop obs.id ident.user.login true ident
            ((obs.identifications.take (ci + 1)).reverse)).2 true).2,
         (walkLoop obs.id ident.user.login true ident
            ((obs.identifications.take (ci + 1)).reverse)).1⟩) := by
  rcases hw : walkLoop obs.id ident.user.login true ident
      ((obs.identifications.take (ci + 1)).reverse) with ⟨events, curatorObservations⟩
  rcases hs : scanLoop curatorObservations true with ⟨dep, odate⟩
  simp only [getConfirmationDateAccountingForTaxonChanges, h, hc, ht, if_true, hw, hs]

/-- Splitting `(l.take (n + 1)).reverse` at a known element. -/
theorem take_reverse_cons {α : Type} (l : List α) (n : Nat) (x : α)
    (h : l.get? n = some x) :
    (l.take (n + 1)).reverse = x :: (l.take n).reverse := by
  have hn : n < l.length := by
    by_contra hc
    rw [List.get?_eq_none.mpr (Nat.le_of_not_lt hc)] at h
    cases h
  have h1 : l.take (n + 1) = (l.take n).concat l[n] := (List.take_concat_get l n hn).symm
  have hx : l[n] = x := by
    rw [List.get?_eq_getElem?, List.getElem?_eq_getElem hn] at h
    exact Option.some.inj h
  rw [h1, List.concat_eq_append, List.reverse_append, hx]
  simp

/-! ## Sample data used by the witness theorems -/

def dA : Date := ⟨2019, 1000⟩

def dB : Date := ⟨2021, 2000⟩

def curatorUser : User := ⟨"alice", "Alice", 1⟩

def observerUser : User := ⟨"olivia", "Olivia", 7⟩

def ancKingdom : INatTaxonAncestor := ⟨1, "Animalia", "kingdom"⟩

def ancSpecies : INatTaxonAncestor := ⟨500, "Aus bus", "species"⟩

def taxonOld : Taxon := ⟨100, "Aus oldus", "species", [ancKingdom]⟩

def taxonNew : Taxon := ⟨101, "Aus novus", "species", [ancKingdom]⟩

def taxonSub : Taxon := ⟨600, "Aus bus subbus", "subspecies", [ancKingdom, ancSpecies]⟩

def identPlain : Identification := ⟨curatorUser, taxonOld, 100, true, dA, none⟩

def identSwap : Identification := ⟨curatorUser, taxonNew, 101, true, dB, some ⟨900, "TaxonSwap"⟩⟩

def identPrior : Identification := ⟨curatorUser, taxonOld, 100, false, dA, none⟩

def identBad : Identification := ⟨curatorUser, taxonNew, 101, true, dB, some ⟨901, "TaxonHybrid"⟩⟩

def identSub : Identification := ⟨curatorUser, taxonSub, 600, true, dA, none⟩

def obsSwap : Observation := ⟨11, observerUser, some dA, dA, [identPlain, identSwap]⟩

def obsPlain : Observation := ⟨12, observerUser, none, dA, [identPlain]⟩

def obsBad : Observation := ⟨13, observerUser, none, dB, [identBad]⟩

def obsAllChange : Observation := ⟨14, observerUser, none, dB, [identSwap]⟩

def obsSub : Observation := ⟨15, observerUser, some dA, dA, [identSub]⟩

def obsOld : Observation := ⟨21, observerUser, none, dA, [identPlain]⟩

def obsSwapLater : Observation := ⟨22, observerUser, none, dB, [identPrior, identSwap]⟩

/-! ## Characterization of the identification scanner -/

/-- The three filters an identification must pass to qualify: marked current,
made by a recognized curator, and at species or subspecies rank. -/
def isQualifyingIdentification (curators : List String) (ident : Identification) : Bool :=
  ident.current && curators.contains ident.user.login &&
    (ident.taxon.rank == "species" || ident.taxon.rank == "subspecies")

theorem identLoop_cons_skip (curators taxonsToReturn : List String) (obs : Observation)
    (i : Nat) (ident : Identification) (rest : List (Nat × Identification)) (st : AggState)
    (hq : isQualifyingIdentification curators ident = false) :
    identLoop curators taxonsToReturn obs ((i, ident) :: rest) st =
      identLoop curators taxonsToReturn obs rest st := by
  simp only [identLoop]
  by_cases h1 : ident.current = false
  · rw [if_pos h1]
  · rw [if_neg h1]
    by_cases h2 : curators.contains ident.user.login = false
    · rw [if_pos h2]
    · rw [if_neg h2]
      by_cases h3 : ident.taxon.rank ≠ "species" ∧ ident.taxon.rank ≠ "subspecies"
      · rw [if_pos h3]
      · exfalso
        have h1t : ident.current = true := by
          revert h1; cases ident.current <;> simp
        have h2t : curators.contains ident.user.login = true := by
          revert h2; cases curators.contains ident.user.login <;> simp
        have h3o : ident.taxon.rank = "species" ∨ ident.taxon.rank = "subspecies" := by
          rcases Decidable.not_and_iff_or_not.mp h3 with h | h
          · exact Or.inl (Decidable.of_not_not h)
          · exact Or.inr (Decidable.of_not_not h)
        have hqt : isQualifyingIdentification curators ident = true := by
          show (ident.current && curators.contains ident.user.login &&
            (ident.taxon.rank == "species" || ident.taxon.rank == "subspecies")) = true
          rw [h1t, h2t]
          rcases h3o with h | h <;> simp [h]
        rw [hqt] at hq
        cases hq

theorem identLoop_cons_qual (curators taxonsToReturn : List String) (obs : Observation)
    (i : Nat) (ident : Identification) (rest : List (Nat × Identification)) (st : AggState)
    (hq : isQualifyingIdentification curators ident = true) :
    identLoop curators taxonsToReturn obs ((i, ident) :: rest) st =
      handleQualifying taxonsToReturn obs i ident st := by
  have hq' : (ident.current && curators.contains ident.user.login &&
      (ident.taxon.rank == "species" || ident.taxon.rank == "subspecies")) = true := hq
  rcases Bool.and_eq_true_iff.mp hq' with ⟨hab, hc⟩
  rcases Bool.and_eq_true_iff.mp hab with ⟨h1, h2⟩
  have h3o : ident.taxon.rank = "species" ∨ ident.taxon.rank = "subspecies" := by
    rcases Bool.or_eq_true_iff.mp hc with h | h
    · exact Or.inl (by simpa using h)
    · exact Or.inr (by simpa using h)
  simp only [identLoop]
  rw [if_neg (by rw [h1]; simp), if_neg (by rw [h2]; simp),
    if_neg (by rcases h3o with h | h <;> simp [h])]

theorem identLoop_enumFrom_spec (curators taxonsToReturn : List String) (obs : Observation) :
    ∀ (l : List Identification) (n : Nat) (st : AggState),
      (l.find? (isQualifyingIdentification curators) = none →
        identLoop curators taxonsToReturn obs (List.enumFrom n l) st = .ok (st, none)) ∧
      (∀ ident, l.find? (isQualifyingIdentification curators) = some ident →
        ∃ i, identLoop curators taxonsToReturn obs (List.enumFrom n l) st =
          handleQualifying taxonsToReturn obs i ident st) := by
  intro l
  induction l with
  | nil =>
    intro n st
    refine ⟨fun _ => by simp [List.enumFrom, identLoop], fun ident hfind => by cases hfind⟩
  | cons x rest ih =>
    intro n st
    constructor
    · intro hnone
      have hq : isQualifyingIdentification curators x = false := by
        by_contra hq'
        have hq'' : isQualifyingIdentification curators x = true := by
          revert hq'; cases isQualifyingIdentification curators x <;> simp
        rw [List.find?_cons_of_pos _ hq''] at hnone
        cases hnone
      have hrest : rest.find? (isQualifyingIdentification curators) = none := by
        rwa [List.find?_cons_of_neg _ (by simp [hq])] at hnone
      rw [List.enumFrom_cons, identLoop_cons_skip _ _ _ _ _ _ _ hq]
      exact (ih (n + 1) st).1 hrest
    · intro ident hfind
      by_cases hq : isQualifyingIdentification curators x = true
      · rw [List.find?_cons_of_pos _ hq] at hfind
        have hx : x = ident := Option.some.inj hfind
        subst hx
        rw [List.enumFrom_cons, identLoop_cons_qual _ _ _ _ _ _ _ hq]
        exact ⟨n, rfl⟩
      · have hq' : isQualifyingIdentification curators x = false := by
          revert hq; cases isQualifyingIdentification curators x <;> simp
        rw [List.find?_cons_of_neg _ (by simp [hq'])] at hfind
        rw [List.enumFrom_cons, identLoop_cons_skip _ _ _ _ _ _ _ hq']
        exact (ih (n + 1) st).2 ident hfind

/-- Everything the qualifying step guarantees about its `.ok` result. -/
theorem handleQualifying_ok (taxonsToReturn : List String) (obs : Observation) (i : Nat)
    (ident : Identification) (st st2 : AggState) (octid : Option Nat)
    (hok : handleQualifying taxonsToReturn obs i ident st = .ok (st2, octid)) :
    ∃ ctid name r,
      resolveSpeciesIdName ident = some (ctid, name) ∧
      octid = some ctid ∧
      getConfirmationDateAccountingForTaxonChanges i obs = some (.ok r) ∧
      st2.taxonsToRemove = st.taxonsToRemove ++ r.deprecatedTaxonIds ∧
      st2.taxonChangeData = st.taxonChangeData ++ r.taxonChangeData ∧
      (∀ k, k ≠ ctid →
        ObjMap.find? st2.processedData k = ObjMap.find? st.processedData k) ∧
      ∃ entry2,
        ObjMap.find? st2.processedData ctid = some entry2 ∧
        entry2.speciesName = some name ∧
        entry2.observations =
          (((ObjMap.find? st.processedData ctid).map SpeciesData.observations).getD []) ++
            [⟨obs.id, obs.observed_on_details, obs.created_at_details,
              r.originalConfirmationDate, r.originalConfirmationDate.map Date.unix,
              ident.user.login, obs.user⟩] ∧
        entry2.taxonomy =
          some (((ObjMap.find? st.processedData ctid).bind SpeciesData.taxonomy).getD
            (getTaxonomy ident.taxon.ancestors taxonsToReturn)) := by
  rcases hr : resolveSpeciesIdName ident with _ | ⟨ctid, name⟩
  · rw [handleQualifying, hr] at hok
    cases hok
  · rcases hres : getConfirmationDateAccountingForTaxonChanges i obs with _ | out
    · rw [handleQualifying, hr, hres] at hok
      cases hok
    · cases out with
      | fatal =>
        rw [handleQualifying, hr, hres] at hok
        cases hok
      | ok r =>
        rw [handleQualifying, hr, hres] at hok
        simp only [Except.ok.injEq, Prod.mk.injEq] at hok
        obtain ⟨hst2, hoctid⟩ := hok
        have hpd : st2.processedData =
            ObjMap.modify (ObjMap.modify
              (if (ObjMap.find? st.processedData ctid).isNone then
                ObjMap.set st.processedData ctid ⟨none, [], none⟩
              else st.processedData) ctid
              (fun entry => { entry with
                speciesName := some name
                observations := entry.observations ++ [⟨obs.id, obs.observed_on_details,
                  obs.created_at_details, r.originalConfirmationDate,
                  r.originalConfirmationDate.map Date.unix, ident.user.login, obs.user⟩] }))
              ctid
              (fun entry => if entry.taxonomy.isNone then
                { entry with taxonomy := some (getTaxonomy ident.taxon.ancestors taxonsToReturn) }
              else entry) := by
          rw [← hst2]
        have htr : st2.taxonsToRemove = st.taxonsToRemove ++ r.deprecatedTaxonIds := by
          rw [← hst2]
        have htc : st2.taxonChangeData = st.taxonChangeData ++ r.taxonChangeData := by
          rw [← hst2]
        refine ⟨ctid, name, r, rfl, hoctid.symm, rfl, htr, htc, ?_, ?_⟩
        · intro k hk
          rw [hpd, ObjMap.find?_modify_ne _ _ _ _ hk, ObjMap.find?_modify_ne _ _ _ _ hk]
          by_cases hpdn : (ObjMap.find? st.processedData ctid).isNone
          · rw [if_pos hpdn]
            exact ObjMap.find?_set_ne _ _ _ _ hk
          · rw [if_neg hpdn]
        · rcases hfind : ObjMap.find? st.processedData ctid with _ | entry
          · have hpdn : (ObjMap.find? st.processedData ctid).isNone = true := by
              rw [hfind]; rfl
            rw [hpd, ObjMap.find?_modify_self, ObjMap.find?_modify_self, if_pos hpdn,
              ObjMap.find?_set_self]
            refine ⟨_, rfl, ?_, ?_, ?_⟩ <;> simp
          · have hpdn : ¬((ObjMap.find? st.processedData ctid).isNone = true) := by
              rw [hfind]; simp
            rw [hpd, ObjMap.find?_modify_self, ObjMap.find?_modify_self, if_neg hpdn, hfind]
            refine ⟨_, rfl, ?_, ?_, ?_⟩ <;>
              rcases ht : entry.taxonomy with _ | t <;> simp [ht]

/-- `processObservation` either leaves the state untouched (no qualifying
identification) or behaves exactly as the qualifying step run on the first
qualifying identification. -/
theorem processObservation_ok (curators taxonsToReturn : List String) (st : AggState)
    (obs : Observation) (st' : AggState)
    (hok : processObservation curators taxonsToReturn st obs = .ok st') :
    (obs.identifications.find? (isQualifyingIdentification curators) = none → st' = st) ∧
    (∀ ident, obs.identifications.find? (isQualifyingIdentification curators) = some ident →
      ∃ i ctid, handleQualifying taxonsToReturn obs i ident st = .ok (st', some ctid)) := by
  constructor
  · intro hnone
    have hloop : identLoop curators taxonsToReturn obs obs.identifications.enum st =
        .ok (st, none) :=
      (identLoop_enumFrom_spec curators taxonsToReturn obs obs.identifications 0 st).1 hnone
    simp only [processObservation, hloop] at hok
    exact (Except.ok.inj hok).symm
  · intro ident hfind
    obtain ⟨i, heq⟩ :=
      (identLoop_enumFrom_spec curators taxonsToReturn obs obs.identifications 0 st).2 ident hfind
    have heq' : identLoop curators taxonsToReturn obs obs.identifications.enum st =
        handleQualifying taxonsToReturn obs i ident st := heq
    rcases hh : handleQualifying taxonsToReturn obs i ident st with e | p
    · simp only [processObservation, heq', hh] at hok
      cases hok
    · rcases p with ⟨st2, octid⟩
      obtain ⟨ctid, name, r, hr, hoct, hres, htr, htc, hother, entry2, hfind2, hsn, hobs, htax⟩ :=
        handleQualifying_ok taxonsToReturn obs i ident st st2 octid hh
      subst hoct
      simp only [processObservation, heq', hh] at hok
      have hok2 : (if ctid ≠ 0 then
          (match ObjMap.find? st2.processedData ctid with
           | none => (Except.error RunError.invalidAccess : Except RunError AggState)
           | some entry =>
             if entry.observations.length = 0 then
               Except.ok { st2 with processedData := ObjMap.erase st2.processedData ctid }
             else Except.ok st2)
          else Except.ok st2) = Except.ok st' := hok
      have hlen : ¬(entry2.observations.length = 0) := by
        rw [hobs]
        simp
      by_cases hz : ctid ≠ 0
      · rw [if_pos hz, hfind2] at hok2
        have hok3 : (if entry2.observations.length = 0 then
            Except.ok { st2 with processedData := ObjMap.erase st2.processedData ctid }
          else (Except.ok st2 : Except RunError AggState)) = Except.ok st' := hok2
        rw [if_neg hlen] at hok3
        have hst : st2 = st' := Except.ok.inj hok3
        rw [hst] at hh
        exact ⟨i, ctid, hh⟩
      · rw [if_neg hz] at hok2
        have hst : st2 = st' := Except.ok.inj hok2
        rw [hst] at hh
        exact ⟨i, ctid, hh⟩

/-- C6: per observation, the scanner skips identifications that are not
current, not by a curator, or not at species/subspecies rank; it appends
exactly one observation record, for the first identification passing all
three filters, to the resolved species entry (leaving every other key
untouched), and leaves the state unchanged when no identification
qualifies. -/
theorem c6_scanner_first_qualifying (curators taxonsToReturn : List String)
    (obs : Observation) (st st' : AggState)
    (hok : processObservation curators taxonsToReturn st obs = .ok st') :
    (obs.identifications.find? (isQualifyingIdentification curators) = none → st' = st) ∧
    (∀ ident, obs.identifications.find? (isQualifyingIdentification curators) = some ident →
      ∃ ctid obsRecord entry2,
        obsRecord.observationId = obs.id ∧
        obsRecord.curator = ident.user.login ∧
        ObjMap.find? st'.processedData ctid = some entry2 ∧
        entry2.observations =
          (((ObjMap.find? st.processedData ctid).map SpeciesData.observations).getD []) ++
            [obsRecord] ∧
        (∀ k, k ≠ ctid →
          ObjMap.find? st'.processedData k = ObjMap.find? st.processedData k)) := by
  refine ⟨(processObservation_ok curators taxonsToReturn st obs st' hok).1, ?_⟩
  intro ident hfind
  obtain ⟨i, ctid, hh⟩ :=
    (processObservation_ok curators taxonsToReturn st obs st' hok).2 ident hfind
  obtain ⟨ctid', name, r, hr, hoct, hres, htr, htc, hother, entry2, hfind2, hsn, hobs, htax⟩ :=
    handleQualifying_ok taxonsToReturn obs i ident st st' (some ctid) hh
  have hcc : ctid' = ctid := by
    have := Option.some.inj hoct
    exact this.symm
  subst hcc
  exact ⟨ctid', ⟨obs.id, obs.observed_on_details, obs.created_at_details,
    r.originalConfirmationDate, r.originalConfirmationDate.map Date.unix,
    ident.user.login, obs.user⟩, entry2, rfl, rfl, hfind2, hobs, hother⟩

/-! ## Characterization of the change ledger -/

theorem groupStep_other (acc : ChangeLedger) (row : TaxonChangeData) (y : Int) (p : String)
    (hne : ¬(row.yearChanged = y ∧ row.previousSpeciesName = p)) :
    ledgerFind (groupStep acc row) y p = ledgerFind acc y p := by
  by_cases hy : row.yearChanged = y
  · have hp : p ≠ row.previousSpeciesName := fun h => hne ⟨hy, h.symm⟩
    subst hy
    rcases hfy : ObjMap.find? acc row.yearChanged with _ | ym
    · simp only [ledgerFind, groupStep, hfy, ObjMap.find?_set_self, Option.some_bind,
        Option.none_bind]
      rw [ObjMap.find?_set_ne _ _ _ _ hp, ObjMap.find?_nil]
    · simp only [ledgerFind, groupStep, hfy]
      by_cases hpp : (ObjMap.find? ym row.previousSpeciesName).isSome = true
      · rw [if_pos hpp, hfy]
      · rw [if_neg hpp, ObjMap.find?_set_self]
        simp only [Option.some_bind]
        rw [ObjMap.find?_set_ne _ _ _ _ hp]
  · have hyy : y ≠ row.yearChanged := fun h => hy h.symm
    rcases hfy : ObjMap.find? acc row.yearChanged with _ | ym
    · simp only [ledgerFind, groupStep, hfy]
      rw [ObjMap.find?_set_ne _ _ _ _ hyy]
    · simp only [ledgerFind, groupStep, hfy]
      by_cases hpp : (ObjMap.find? ym row.previousSpeciesName).isSome = true
      · rw [if_pos hpp]
      · rw [if_neg hpp, ObjMap.find?_set_ne _ _ _ _ hyy]

theorem groupStep_sets (acc : ChangeLedger) (row : TaxonChangeData)
    (h : ledgerFind acc row.yearChanged row.previousSpeciesName = none) :
    ledgerFind (groupStep acc row) row.yearChanged row.previousSpeciesName =
      some ⟨row.newSpeciesName, row.taxonChangeId⟩ := by
  rcases hfy : ObjMap.find? acc row.yearChanged with _ | ym
  · simp [ledgerFind, groupStep, hfy, ObjMap.find?_set_self]
  · rw [ledgerFind, hfy] at h
    have h' : ObjMap.find? ym row.previousSpeciesName = none := h
    simp only [ledgerFind, groupStep, hfy]
    rw [if_neg (by rw [h']; simp), ObjMap.find?_set_self]
    simp only [Option.some_bind]
    exact ObjMap.find?_set_self _ _ _

theorem groupStep_preserves (acc : ChangeLedger) (row : TaxonChangeData) (y : Int)
    (p : String) (e : ChangeLedgerEntry) (h : ledgerFind acc y p = some e) :
    ledgerFind (groupStep acc row) y p = some e := by
  by_cases hyp : row.yearChanged = y ∧ row.previousSpeciesName = p
  · obtain ⟨hy, hp⟩ := hyp
    subst hy
    subst hp
    rw [ledgerFind] at h
    rcases hfy : ObjMap.find? acc row.yearChanged with _ | ym
    · rw [hfy] at h
      simp at h
    · rw [hfy] at h
      have h' : ObjMap.find? ym row.previousSpeciesName = some e := h
      simp only [ledgerFind, groupStep, hfy]
      rw [if_pos (by rw [h']; simp), hfy]
      simp only [Option.some_bind]
      exact h'
  · rw [groupStep_other acc row y p hyp]
    exact h

theorem groupChangeData_aux :
    ∀ (rows : List TaxonChangeData) (acc : ChangeLedger) (y : Int) (p : String),
      ledgerFind (rows.foldl groupStep acc) y p =
        (match ledgerFind acc y p with
         | some e => some e
         | none =>
           (rows.find? (fun r => r.yearChanged == y && r.previousSpeciesName == p)).map
             (fun r => ⟨r.newSpeciesName, r.taxonChangeId⟩)) := by
  intro rows
  induction rows with
  | nil =>
    intro acc y p
    rcases h : ledgerFind acc y p with _ | e <;> simp [h]
  | cons row rest ih =>
    intro acc y p
    rw [List.foldl_cons, ih]
    rcases hacc : ledgerFind acc y p with _ | e
    · by_cases hyp : row.yearChanged = y ∧ row.previousSpeciesName = p
      · obtain ⟨hy, hp⟩ := hyp
        have hset : ledgerFind (groupStep acc row) y p =
            some ⟨row.newSpeciesName, row.taxonChangeId⟩ := by
          rw [← hy, ← hp]
          exact groupStep_sets acc row (by rw [hy, hp]; exact hacc)
        rw [hset]
        have hpred : (fun r => r.yearChanged == y && r.previousSpeciesName == p) row = true := by
          simp [hy, hp]
        have hfind : List.find? (fun r => r.yearChanged == y && r.previousSpeciesName == p)
            (row :: rest) = some row := List.find?_cons_of_pos _ hpred
        rw [hfind]
        simp
      · rw [groupStep_other acc row y p hyp, hacc]
        have hpred : ¬((fun r => r.yearChanged == y && r.previousSpeciesName == p) row = true) := by
          simp only [Bool.and_eq_true, beq_iff_eq]
          exact hyp
        have hfind : List.find? (fun r => r.yearChanged == y && r.previousSpeciesName == p)
            (row :: rest) =
            List.find? (fun r => r.yearChanged == y && r.previousSpeciesName == p) rest :=
          List.find?_cons_of_neg _ hpred
        rw [hfind]
    · rw [groupStep_preserves acc row y p e hacc]

/-- C9: the change-event collector is folded into a ledger keyed by year of
change then by prior species name; looking up a (year, prior name) pair
yields exactly the entry built from the FIRST row of the collector with that
year and prior name — later rows with the same pair are silently ignored. -/
theorem c9_change_ledger_first_wins (rows : List TaxonChangeData) (y : Int) (p : String) :
    ledgerFind (groupChangeData rows) y p =
      (rows.find? (fun r => r.yearChanged == y && r.previousSpeciesName == p)).map
        (fun r => ⟨r.newSpeciesName, r.taxonChangeId⟩) := by
  rw [groupChangeData, groupChangeData_aux]
  simp [ledgerFind, ObjMap.find?_nil]

/-! ## Characterization of `getUniqueItems` -/

theorem filterWithIndex_shift (a : Nat) (arr : List Nat) :
    ∀ (l : List Nat) (i : Nat),
      filterWithIndex (fun idx v => (a :: arr).indexOf v == idx) (i + 1) l =
        (filterWithIndex (fun idx v => arr.indexOf v == idx) i l).filter
          (fun x => !(x == a)) := by
  intro l
  induction l with
  | nil => intro i; simp [filterWithIndex]
  | cons x t ih =>
    intro i
    by_cases hx : x = a
    · subst hx
      have hp : ((x :: arr).indexOf x == i + 1) = false := by
        rw [List.indexOf_cons_self]
        simp
      by_cases hq : (arr.indexOf x == i) = true
      · simp only [filterWithIndex, hp, Bool.false_eq_true, if_false, hq, if_true,
          List.filter_cons, beq_self_eq_true, Bool.not_true]
        exact ih (i + 1)
      · have hq' : (arr.indexOf x == i) = false := by
          revert hq; cases (arr.indexOf x == i) <;> simp
        simp only [filterWithIndex, hp, Bool.false_eq_true, if_false, hq', if_true]
        exact ih (i + 1)
    · have hne : (x == a) = false := by simp [hx]
      have hidx : (a :: arr).indexOf x = arr.indexOf x + 1 :=
        List.indexOf_cons_ne arr (fun h => hx h.symm)
      have hpq : ((a :: arr).indexOf x == i + 1) = (arr.indexOf x == i) := by
        rw [hidx]
        by_cases h : arr.indexOf x = i
        · simp [h]
        · have h1 : (arr.indexOf x + 1 == i + 1) = false := by
            simp only [beq_eq_false_iff_ne, ne_eq]
            omega
          have h2 : (arr.indexOf x == i) = false := by
            simp only [beq_eq_false_iff_ne, ne_eq]
            exact h
          rw [h1, h2]
      by_cases hq : (arr.indexOf x == i) = true
      · simp only [filterWithIndex, hpq, hq, if_true, List.filter_cons, hne, Bool.not_false]
        exact congrArg (x :: ·) (ih (i + 1))
      · have hq' : (arr.indexOf x == i) = false := by
          revert hq; cases (arr.indexOf x == i) <;> simp
        simp only [filterWithIndex, hpq, hq', Bool.false_eq_true, if_false]
        exact ih (i + 1)

theorem getUniqueItems_cons (a : Nat) (l : List Nat) :
    getUniqueItems (a :: l) = a :: (getUniqueItems l).filter (fun x => !(x == a)) := by
  have h0 : ((a :: l).indexOf a == 0) = true := by
    rw [List.indexOf_cons_self]
    simp
  simp only [getUniqueItems, filterWithIndex, h0, if_true]
  exact congrArg (a :: ·) (filterWithIndex_shift a l l 0)

theorem getUniqueItems_mem : ∀ (arr : List Nat) (x : Nat),
    x ∈ getUniqueItems arr ↔ x ∈ arr := by
  intro arr
  induction arr with
  | nil => intro x; simp [getUniqueItems, filterWithIndex]
  | cons a l ih =>
    intro x
    rw [getUniqueItems_cons]
    by_cases hx : x = a
    · subst hx
      simp
    · simp [List.mem_filter, hx, ih x]

theorem getUniqueItems_nodup : ∀ arr : List Nat, (getUniqueItems arr).Nodup := by
  intro arr
  induction arr with
  | nil => simp [getUniqueItems, filterWithIndex]
  | cons a l ih =>
    rw [getUniqueItems_cons, List.nodup_cons]
    constructor
    · intro hmem
      rcases List.mem_filter.mp hmem with ⟨_, hpred⟩
      simp at hpred
    · exact List.Nodup.filter _ ih

theorem getUniqueItems_pairwise : ∀ arr : List Nat,
    List.Pairwise (fun x y => arr.indexOf x < arr.indexOf y) (getUniqueItems arr) := by
  intro arr
  induction arr with
  | nil => simp [getUniqueItems, filterWithIndex]
  | cons a l ih =>
    rw [getUniqueItems_cons, List.pairwise_cons]
    constructor
    · intro y hy
      rcases List.mem_filter.mp hy with ⟨_, hpred⟩
      have hya : y ≠ a := by simpa using hpred
      rw [List.indexOf_cons_self, List.indexOf_cons_ne l (fun h => hya h.symm)]
      exact Nat.succ_pos _
    · have hsub : ((getUniqueItems l).filter (fun x => !(x == a))).Sublist (getUniqueItems l) :=
        List.filter_sublist _
      refine List.Pairwise.imp_of_mem ?_ (List.Pairwise.sublist hsub ih)
      intro x y hxm hym hr
      have hxa : x ≠ a := by
        rcases List.mem_filter.mp hxm with ⟨_, h⟩
        simpa using h
      have hya : y ≠ a := by
        rcases List.mem_filter.mp hym with ⟨_, h⟩
        simpa using h
      rw [List.indexOf_cons_ne l (fun h => hxa h.symm),
        List.indexOf_cons_ne l (fun h => hya h.symm)]
      exact Nat.succ_lt_succ hr

/-! ## Provenance of aggregate keys -/

/-- `k` is a species-level key for `obs`: the taxon id of a species-rank
identification, or the id of the last ancestor of a subspecies-rank one. -/
def speciesLevelKeyOf (obs : Observation) (k : Nat) : Prop :=
  ∃ ident ∈ obs.identifications,
    (ident.taxon.rank = "species" ∧ ident.taxon.id = k) ∨
    (ident.taxon.rank = "subspecies" ∧
      ∃ anc, ident.taxon.ancestors.getLast? = some anc ∧ anc.id = k)

theorem resolveSpecies_provenance (curators : List String) (obs : Observation)
    (ident : Identification) (hmem : ident ∈ obs.identifications)
    (hq : isQualifyingIdentification curators ident = true)
    (ctid : Nat) (name : String) (hr : resolveSpeciesIdName ident = some (ctid, name)) :
    speciesLevelKeyOf obs ctid := by
  by_cases hsub : ident.taxon.rank = "subspecies"
  · have hb : (ident.taxon.rank == "subspecies") = true := by simp [hsub]
    rw [resolveSpeciesIdName, if_pos hb] at hr
    rcases Option.map_eq_some'.mp hr with ⟨anc, hganc, hpair⟩
    have hid : anc.id = ctid := congrArg Prod.fst hpair
    exact ⟨ident, hmem, Or.inr ⟨hsub, anc, hganc, hid⟩⟩
  · have hb : ¬((ident.taxon.rank == "subspecies") = true) := by simp [hsub]
    rw [resolveSpeciesIdName, if_neg hb] at hr
    have hpair := Option.some.inj hr
    have hid : ident.taxon.id = ctid := congrArg Prod.fst hpair
    have hq' : (ident.current && curators.contains ident.user.login &&
        (ident.taxon.rank == "species" || ident.taxon.rank == "subspecies")) = true := hq
    rcases Bool.and_eq_true_iff.mp hq' with ⟨_, hcr⟩
    have hspec : ident.taxon.rank = "species" := by
      rcases Bool.or_eq_true_iff.mp hcr with h | h
      · simpa using h
      · exact absurd (by simpa using h) hsub
    exact ⟨ident, hmem, Or.inl ⟨hspec, hid⟩⟩

theorem processObservation_keys (curators taxonsToReturn : List String) (st : AggState)
    (obs : Observation) (st' : AggState)
    (hok : processObservation curators taxonsToReturn st obs = .ok st') (k : Nat)
    (hk : (ObjMap.find? st'.processedData k).isSome = true) :
    (ObjMap.find? st.processedData k).isSome = true ∨ speciesLevelKeyOf obs k := by
  rcases hfq : obs.identifications.find? (isQualifyingIdentification curators) with _ | ident
  · left
    rw [(processObservation_ok curators taxonsToReturn st obs st' hok).1 hfq] at hk
    exact hk
  · obtain ⟨i, ctid, hh⟩ :=
      (processObservation_ok curators taxonsToReturn st obs st' hok).2 ident hfq
    obtain ⟨ctid', name, r, hr, hoct, _, _, _, hother, _, _, _, _, _⟩ :=
      handleQualifying_ok taxonsToReturn obs i ident st st' (some ctid) hh
    have hcc : ctid' = ctid := (Option.some.inj hoct).symm
    subst hcc
    by_cases hkc : k = ctid'
    · right
      subst hkc
      exact resolveSpecies_provenance curators obs ident
        (List.mem_of_find?_eq_some hfq) (List.find?_some hfq) k name hr
    · left
      rw [hother k hkc] at hk
      exact hk

theorem parseDataFile_keys (curators taxonsToReturn : List String) :
    ∀ (results : List Observation) (st st' : AggState),
      parseDataFile curators taxonsToReturn results st = .ok st' →
      ∀ k, (ObjMap.find? st'.processedData k).isSome = true →
        (ObjMap.find? st.processedData k).isSome = true ∨
          ∃ obs ∈ results, speciesLevelKeyOf obs k := by
  intro results
  induction results with
  | nil =>
    intro st st' hok k hk
    have hok2 : (Except.ok st : Except RunError AggState) = .ok st' := hok
    left
    rw [← Except.ok.inj hok2] at hk
    exact hk
  | cons obs rest ih =>
    intro st st' hok k hk
    have hstep : parseDataFile curators taxonsToReturn (obs :: rest) st =
        processObservation curators taxonsToReturn st obs >>= fun s =>
          parseDataFile curators taxonsToReturn rest s := by
      simp [parseDataFile, List.foldlM_cons]
    rcases hp : processObservation curators taxonsToReturn st obs with e | st1
    · rw [hstep, hp] at hok
      have hok2 : (Except.error e : Except RunError AggState) = .ok st' := hok
      cases hok2
    · rw [hstep, hp] at hok
      have hrest : parseDataFile curators taxonsToReturn rest st1 = .ok st' := hok
      rcases ih st1 st' hrest k hk with h1 | ⟨o, ho, hsk⟩
      · rcases processObservation_keys curators taxonsToReturn st obs st1 hp k h1 with h2 | hsk
        · left
          exact h2
        · right
          exact ⟨obs, by simp, hsk⟩
      · right
        exact ⟨o, by simp [ho], hsk⟩

theorem pagesFold_keys (curators taxon : List String) :
    ∀ (pages : List (List Observation)) (st st' : AggState),
      pages.foldlM (fun s page => parseDataFile curators taxon page s) st = .ok st' →
      ∀ k, (ObjMap.find? st'.processedData k).isSome = true →
        (ObjMap.find? st.processedData k).isSome = true ∨
          ∃ page ∈ pages, ∃ obs ∈ page, speciesLevelKeyOf obs k := by
  intro pages
  induction pages with
  | nil =>
    intro st st' hok k hk
    have hok2 : (Except.ok st : Except RunError AggState) = .ok st' := hok
    left
    rw [← Except.ok.inj hok2] at hk
    exact hk
  | cons page rest ih =>
    intro st st' hok k hk
    have hstep : (page :: rest).foldlM (fun s p => parseDataFile curators taxon p s) st =
        parseDataFile curators taxon page st >>= fun s =>
          rest.foldlM (fun s p => parseDataFile curators taxon p s) s := by
      simp [List.foldlM_cons]
    rcases hp : parseDataFile curators taxon page st with e | st1
    · rw [hstep, hp] at hok
      have hok2 : (Except.error e : Except RunError AggState) = .ok st' := hok
      cases hok2
    · rw [hstep, hp] at hok
      have hrest : rest.foldlM (fun s p => parseDataFile curators taxon p s) st1 = .ok st' := hok
      rcases ih st1 st' hrest k hk with h1 | ⟨p, hp2, o, ho, hsk⟩
      · rcases parseDataFile_keys curators taxon page st st1 hp k h1 with h2 | ⟨o, ho, hsk⟩
        · left
          exact h2
        · right
          exact ⟨page, by simp, o, ho, hsk⟩
      · right
        exact ⟨p, by simp [hp2], o, ho, hsk⟩

theorem parseDataFiles_of_run_ok (pages : List (List Observation))
    (curators taxon : List String) (st : AggState)
    (hrun : runAllPages pages curators taxon = .ok st) :
    parseDataFiles pages curators taxon =
      .ok ((getUniqueItems st.taxonsToRemove).foldl
             (fun m taxonId => ObjMap.erase m taxonId) st.processedData,
           groupChangeData st.taxonChangeData) := by
  simp only [parseDataFiles, hrun]

theorem parseDataFiles_of_run_error (pages : List (List Observation))
    (curators taxon : List String) (e : RunError)
    (hrun : runAllPages pages curators taxon = .error e) :
    parseDataFiles pages curators taxon = .error e := by
  simp only [parseDataFiles, hrun]

/-- Reading the matched list at position `j` yields exactly the pointer value
`lcoAfter` computes after `j` steps, provided every matched identification
carries a taxon change. -/
theorem cons_get?_lcoAfter (start : Identification) (tail : List Identification)
    (hall : ∀ x ∈ start :: tail, x.taxon_change.isSome = true)
    (j : Nat) (hj : j < tail.length) :
    (start :: tail).get? j = some (lcoAfter start (tail.take j)) := by
  cases j with
  | zero => simp [lcoAfter]
  | succ jj =>
    have hjj : jj < tail.length := Nat.lt_of_succ_lt hj
    have hallt : ∀ x ∈ tail.take (jj + 1), x.taxon_change.isSome = true :=
      fun x hx => hall x (List.mem_cons_of_mem _ (List.mem_of_mem_take hx))
    have hg : tail.get? jj = some (tail.get ⟨jj, hjj⟩) := List.get?_eq_get hjj
    rw [List.get?_cons_succ, lcoAfter_all_change _ _ hallt, getLast?_take_succ tail jj hjj, hg]
    simp

/-! ## The claims -/

/-- C3: for every observation and valid `curatorIndex` whose identification
has no taxon-change record, the resolver returns immediately with an empty
`deprecatedTaxonIds`, the identification's own creation date as
`originalConfirmationDate`, and pushes nothing into the change-event sink. -/
theorem c3_no_change_short_circuit (obs : Observation) (ci : Nat)
    (ident : Identification) (h : obs.identifications.get? ci = some ident)
    (hnc : ident.taxon_change = none) :
    getConfirmationDateAccountingForTaxonChanges ci obs =
      some (.ok ⟨[], some ident.created_at, []⟩) :=
  resolver_of_no_change obs ci ident h hnc

theorem c3_witness :
    getConfirmationDateAccountingForTaxonChanges 0 obsPlain =
      some (.ok ⟨[], some identPlain.created_at, []⟩) :=
  c3_no_change_short_circuit obsPlain 0 identPlain rfl rfl

def emptyAgg : AggState := ⟨[], [], []⟩

def stSwapDone : AggState :=
  ⟨[(100, ⟨some "Aus oldus",
    [⟨11, some dA, dA, some dA, some 1000, "alice", observerUser⟩], some []⟩)], [], []⟩

theorem c6_witness :
    ∃ ctid obsRecord entry2,
      ObservationRecord.observationId obsRecord = obsSwap.id ∧
      ObservationRecord.curator obsRecord = identPlain.user.login ∧
      ObjMap.find? stSwapDone.processedData ctid = some entry2 ∧
      SpeciesData.observations entry2 =
        (((ObjMap.find? emptyAgg.processedData ctid).map SpeciesData.observations).getD []) ++
          [obsRecord] ∧
      (∀ k, k ≠ ctid →
        ObjMap.find? stSwapDone.processedData k = ObjMap.find? emptyAgg.processedData k) :=
  (c6_scanner_first_qualifying ["alice"] [] obsSwap emptyAgg stSwapDone rfl).2 identPlain rfl

/-- C1: when the identification at a valid `curatorIndex` carries a
recognized taxon change, the forward scan over the collected curator
identifications (newest-to-oldest) contributes the taxon id of every entry
except index 0, up to and including the first non-change entry (index
`firstNonChangeIdx`), to `deprecatedTaxonIds`, and takes that entry's
creation date as `originalConfirmationDate`; in particular, for a single
swap over one prior non-change curator identification the result is exactly
the prior taxon id and the prior creation date. -/
theorem c1_resolver_forward_scan (obs : Observation) (ci : Nat)
    (ident : Identification) (tc : TaxonChange)
    (h : obs.identifications.get? ci = some ident)
    (hc : ident.taxon_change = some tc)
    (ht : knownTaxonChangeTypes.contains tc.type = true) :
    ∀ collected k,
      collected = (walkLoop obs.id ident.user.login true ident
        ((obs.identifications.take (ci + 1)).reverse)).2 →
      k = firstNonChangeIdx collected →
      (∃ events,
        getConfirmationDateAccountingForTaxonChanges ci obs =
          some (.ok ⟨((collected.take (k + 1)).drop 1).map (fun e => e.taxonId),
                     (collected.get? k).map (fun e => e.confirmationDate),
                     events⟩)) ∧
      (∀ t1 d1 t0 d0,
        collected = [⟨t1, d1, true⟩, ⟨t0, d0, false⟩] →
        ((collected.take (k + 1)).drop 1).map (fun e => e.taxonId) = [t0] ∧
        (collected.get? k).map (fun e => e.confirmationDate) = some d0) := by
  intro collected k hcol hk
  subst hcol
  subst hk
  constructor
  · refine ⟨(walkLoop obs.id ident.user.login true ident
      ((obs.identifications.take (ci + 1)).reverse)).1, ?_⟩
    rw [resolver_of_known_change obs ci ident tc h hc ht, scanLoop_true_eq]
  · intro t1 d1 t0 d0 hshape
    rw [hshape]
    have hone : firstNonChangeIdx [(⟨t1, d1, true⟩ : HistEntry), ⟨t0, d0, false⟩] = 1 := by
      simp [firstNonChangeIdx, List.findIdx_cons]
    rw [hone]
    simp

theorem c1_witness :
    (∃ events,
      getConfirmationDateAccountingForTaxonChanges 1 obsSwap =
        some (.ok ⟨(([(⟨101, dB, true⟩ : HistEntry), ⟨100, dA, false⟩].take
                      (firstNonChangeIdx [(⟨101, dB, true⟩ : HistEntry), ⟨100, dA, false⟩] + 1)).drop 1).map
                     (fun e => e.taxonId),
                   ([(⟨101, dB, true⟩ : HistEntry), ⟨100, dA, false⟩].get?
                      (firstNonChangeIdx [(⟨101, dB, true⟩ : HistEntry), ⟨100, dA, false⟩])).map
                     (fun e => e.confirmationDate),
                   events⟩)) ∧
    (∀ t1 d1 t0 d0,
      [(⟨101, dB, true⟩ : HistEntry), ⟨100, dA, false⟩] = [⟨t1, d1, true⟩, ⟨t0, d0, false⟩] →
      (([(⟨101, dB, true⟩ : HistEntry), ⟨100, dA, false⟩].take
          (firstNonChangeIdx [(⟨101, dB, true⟩ : HistEntry), ⟨100, dA, false⟩] + 1)).drop 1).map
         (fun e => e.taxonId) = [t0] ∧
      ([(⟨101, dB, true⟩ : HistEntry), ⟨100, dA, false⟩].get?
          (firstNonChangeIdx [(⟨101, dB, true⟩ : HistEntry), ⟨100, dA, false⟩])).map
         (fun e => e.confirmationDate) = some d0) :=
  c1_resolver_forward_scan obsSwap 1 identSwap ⟨900, "TaxonSwap"⟩ rfl rfl (by decide)
    [⟨101, dB, true⟩, ⟨100, dA, false⟩] (firstNonChangeIdx [⟨101, dB, true⟩, ⟨100, dA, false⟩])
    (by decide) rfl

/-- C2: during the backward walk from `curatorIndex`, with `ms` the list of
identifications by the target curator in walk order (its head is the starting
identification), exactly one change-event row is pushed per matched
identification other than the starting one (`events.length + 1 = ms.length`);
row `j` has prior name taken from the matched identification `ms[j+1]`, and
new name, year of change and change id taken from the current "last curator
observation" pointer (`lcoAfter` over the walked prefix); consequently, when
every matched identification is itself a taxon change, row `j` pairs the
consecutive identifications `ms[j]` (new, supplying the year and change id)
and `ms[j+1]` (prior). -/
theorem c2_walk_change_events (obs : Observation) (ci : Nat) (ident : Identification)
    (tc : TaxonChange) (h : obs.identifications.get? ci = some ident)
    (hchange : ident.taxon_change = some tc) :
    ∀ events ms,
      events = (walkLoop obs.id ident.user.login true ident
        ((obs.identifications.take (ci + 1)).reverse)).1 →
      ms = ((obs.identifications.take (ci + 1)).reverse).filter
        (fun x => x.user.login == ident.user.login) →
      events.length + 1 = ms.length ∧
      (∀ j, events.get? j =
        ((ms.drop 1).get? j).map (fun curr =>
          { id := obs.id
            previousSpeciesName := curr.taxon.name
            newSpeciesName := (lcoAfter ident ((ms.drop 1).take j)).taxon.name
            yearChanged := (lcoAfter ident ((ms.drop 1).take j)).created_at.year
            taxonChangeId :=
              ((lcoAfter ident ((ms.drop 1).take j)).taxon_change.map TaxonChange.id).getD 0 })) ∧
      ((∀ x ∈ ms, x.taxon_change.isSome = true) →
        ∀ j ev, events.get? j = some ev →
          (ms.get? j).map (fun m => m.taxon.name) = some ev.newSpeciesName ∧
          (ms.get? (j + 1)).map (fun m => m.taxon.name) = some ev.previousSpeciesName ∧
          (ms.get? j).map (fun m => m.created_at.year) = some ev.yearChanged ∧
          ((ms.get? j).bind (fun m => m.taxon_change)).map (fun c => c.id) =
            some ev.taxonChangeId) := by
  intro events ms hev hms
  have hrev : (obs.identifications.take (ci + 1)).reverse =
      ident :: (obs.identifications.take ci).reverse :=
    take_reverse_cons _ _ _ h
  have hb : (ident.user.login == ident.user.login) = true := by simp
  have hms' : ms = ident :: ((obs.identifications.take ci).reverse).filter
      (fun x => x.user.login == ident.user.login) := by
    rw [hms, hrev, List.filter_cons, hb]
    simp
  have hev' : events = chainEvents obs.id ident
      (((obs.identifications.take ci).reverse).filter
        (fun x => x.user.login == ident.user.login)) := by
    rw [hev, hrev, walkLoop_start_events _ _ _ _ _ rfl, walkLoop_false_events]
  refine ⟨?_, ?_, ?_⟩
  · rw [hev', chainEvents_length, hms']
    simp
  · intro j
    rw [hev', chainEvents_get?, hms']
    simp
  · intro hall j ev hj
    rw [hev', chainEvents_get?] at hj
    rcases hcur : (((obs.identifications.take ci).reverse).filter
        (fun x => x.user.login == ident.user.login)).get? j with _ | curr
    · rw [hcur] at hj
      cases hj
    · rw [hcur] at hj
      simp only [Option.map_some'] at hj
      have hev2 := Option.some.inj hj
      have hjlt : j < (((obs.identifications.take ci).reverse).filter
          (fun x => x.user.login == ident.user.login)).length := by
        by_contra hcn
        rw [List.get?_eq_none.mpr (Nat.le_of_not_lt hcn)] at hcur
        cases hcur
      have halltail : ∀ x ∈ ident :: ((obs.identifications.take ci).reverse).filter
          (fun x => x.user.login == ident.user.login), x.taxon_change.isSome = true := by
        rw [hms'] at hall
        exact hall
      have hL := cons_get?_lcoAfter ident _ halltail j hjlt
      have hmsj : ms.get? j = some (lcoAfter ident
          ((((obs.identifications.take ci).reverse).filter
            (fun x => x.user.login == ident.user.login)).take j)) := by
        rw [hms']
        exact hL
      have hmsj1 : ms.get? (j + 1) = some curr := by
        rw [hms', List.get?_cons_succ]
        exact hcur
      have hLmem : lcoAfter ident
          ((((obs.identifications.take ci).reverse).filter
            (fun x => x.user.login == ident.user.login)).take j) ∈ ms :=
        List.get?_mem hmsj
      have hLsome : (lcoAfter ident
          ((((obs.identifications.take ci).reverse).filter
            (fun x => x.user.login == ident.user.login)).take j)).taxon_change.isSome = true :=
        hall _ hLmem
      rcases Option.isSome_iff_exists.mp hLsome with ⟨c, hcc⟩
      refine ⟨?_, ?_, ?_, ?_⟩
      · rw [hmsj, ← hev2]
        simp
      · rw [hmsj1, ← hev2]
        simp
      · rw [hmsj, ← hev2]
        simp
      · rw [hmsj, ← hev2]
        have hb2 : ((some (lcoAfter ident
            ((((obs.identifications.take ci).reverse).filter
              (fun x => x.user.login == ident.user.login)).take j))).bind
            (fun m => m.taxon_change)) = some c := hcc
        rw [hb2, hcc]
        simp

theorem c2_witness :
    (walkLoop obsSwap.id identSwap.user.login true identSwap
        ((obsSwap.identifications.take (1 + 1)).reverse)).1.length + 1 =
      (((obsSwap.identifications.take (1 + 1)).reverse).filter
        (fun x => x.user.login == identSwap.user.login)).length :=
  (c2_walk_change_events obsSwap 1 identSwap ⟨900, "TaxonSwap"⟩ rfl rfl
    (walkLoop obsSwap.id identSwap.user.login true identSwap
      ((obsSwap.identifications.take (1 + 1)).reverse)).1
    (((obsSwap.identifications.take (1 + 1)).reverse).filter
      (fun x => x.user.login == identSwap.user.login)) rfl rfl).1

/-- C4: when the identification at a valid `curatorIndex` carries a
recognized taxon change but every collected curator identification is itself
a taxon change, the resolver returns with `originalConfirmationDate` unset
(`none`): the forward scan finds no non-change entry and there is no
fallback. -/
theorem c4_all_change_unset_date (obs : Observation) (ci : Nat)
    (ident : Identification) (tc : TaxonChange)
    (h : obs.identifications.get? ci = some ident)
    (hc : ident.taxon_change = some tc)
    (ht : knownTaxonChangeTypes.contains tc.type = true)
    (hall : ∀ e ∈ (walkLoop obs.id ident.user.login true ident
        ((obs.identifications.take (ci + 1)).reverse)).2, e.isTaxonChange = true) :
    ∃ deprecatedIds events,
      getConfirmationDateAccountingForTaxonChanges ci obs =
        some (.ok ⟨deprecatedIds, none, events⟩) := by
  have hres := resolver_of_known_change obs ci ident tc h hc ht
  rw [scanLoop_true_eq, firstNonChangeIdx_of_all_change _ hall,
    List.get?_eq_none.mpr (Nat.le_refl _)] at hres
  simp only [Option.map_none'] at hres
  exact ⟨_, _, hres⟩

theorem c4_witness :
    ∃ deprecatedIds events,
      getConfirmationDateAccountingForTaxonChanges 0 obsAllChange =
        some (.ok ⟨deprecatedIds, none, events⟩) :=
  c4_all_change_unset_date obsAllChange 0 identSwap ⟨900, "TaxonSwap"⟩ rfl rfl (by decide)
    (by decide)

/-- C5: the resolver produces its unique fatal outcome exactly when the
identification at a valid `curatorIndex` carries a taxon-change record whose
type tag is outside `{TaxonSwap, TaxonSplit, TaxonMerge}`; at the run level
that abort yields an error and no aggregate at all (scenario with an
unrecognized change type). -/
theorem c5_unknown_type_fatal :
    (∀ (obs : Observation) (ci : Nat) (ident : Identification),
      obs.identifications.get? ci = some ident →
      (getConfirmationDateAccountingForTaxonChanges ci obs = some .fatal ↔
        ∃ tc, ident.taxon_change = some tc ∧
          knownTaxonChangeTypes.contains tc.type = false)) ∧
    parseDataFiles [[obsBad]] ["alice"] [] = .error .unknownTaxonChangeType := by
  constructor
  · intro obs ci ident h
    constructor
    · intro hfatal
      cases hc : ident.taxon_change with
      | none =>
        rw [resolver_of_no_change obs ci ident h hc] at hfatal
        cases hfatal
      | some tc =>
        by_cases ht : knownTaxonChangeTypes.contains tc.type
        · rw [resolver_of_known_change obs ci ident tc h hc ht] at hfatal
          cases hfatal
        · exact ⟨tc, rfl, by simpa using ht⟩
    · rintro ⟨tc, hc, ht⟩
      exact resolver_of_unknown_change obs ci ident tc h hc ht
  · rfl

/-- C7: a qualifying identification at subspecies rank is aggregated under
the id and name of the last entry of its taxon's ancestor chain; hence every
key of the final aggregate is a species-level key (the taxon id of a
species-rank identification or a subspecies' last-ancestor id) of some
processed observation — never a subspecies taxon's own id. -/
theorem c7_subspecies_folded :
    (∀ (taxonsToReturn : List String) (obs : Observation) (i : Nat)
        (ident : Identification) (st st2 : AggState) (octid : Option Nat),
      ident.taxon.rank = "subspecies" →
      handleQualifying taxonsToReturn obs i ident st = .ok (st2, octid) →
      ∃ anc, ident.taxon.ancestors.getLast? = some anc ∧ octid = some anc.id ∧
        ∃ entry2, ObjMap.find? st2.processedData anc.id = some entry2 ∧
          entry2.speciesName = some anc.name) ∧
    (∀ (pages : List (List Observation)) (curators taxon : List String)
        (out : ObjMap Nat SpeciesData × ChangeLedger),
      parseDataFiles pages curators taxon = .ok out →
      ∀ k, (ObjMap.find? out.1 k).isSome = true →
        ∃ page ∈ pages, ∃ obs ∈ page, speciesLevelKeyOf obs k) := by
  constructor
  · intro taxonsToReturn obs i ident st st2 octid hsub hok
    obtain ⟨ctid, name, r, hr, hoct, _, _, _, _, entry2, hfind2, hsn, _, _⟩ :=
      handleQualifying_ok taxonsToReturn obs i ident st st2 octid hok
    have hb : (ident.taxon.rank == "subspecies") = true := by simp [hsub]
    rw [resolveSpeciesIdName, if_pos hb] at hr
    rcases Option.map_eq_some'.mp hr with ⟨anc, hganc, hpair⟩
    have hid : anc.id = ctid := congrArg Prod.fst hpair
    have hname : anc.name = name := congrArg Prod.snd hpair
    refine ⟨anc, hganc, ?_, entry2, ?_, ?_⟩
    · rw [hoct, hid]
    · rw [hid]
      exact hfind2
    · rw [hsn, hname]
  · intro pages curators taxon out hok k hk
    rcases hrun : runAllPages pages curators taxon with e | st
    · rw [parseDataFiles_of_run_error pages curators taxon e hrun] at hok
      cases hok
    · rw [parseDataFiles_of_run_ok pages curators taxon st hrun] at hok
      rw [← Except.ok.inj hok] at hk
      have hk2 : (ObjMap.find? ((getUniqueItems st.taxonsToRemove).foldl
          (fun m taxonId => ObjMap.erase m taxonId) st.processedData) k).isSome = true := hk
      rw [ObjMap.find?_foldl_erase] at hk2
      by_cases hmem : k ∈ getUniqueItems st.taxonsToRemove
      · rw [if_pos hmem] at hk2
        simp at hk2
      · rw [if_neg hmem] at hk2
        have hrun' : pages.foldlM (fun s page => parseDataFile curators taxon page s)
            emptyAgg = .ok st := hrun
        rcases pagesFold_keys curators taxon pages emptyAgg st hrun' k hk2 with h | h
        · simp [emptyAgg, ObjMap.find?] at h
        · exact h

def stSubDone : AggState :=
  ⟨[(500, ⟨some "Aus bus",
    [⟨15, some dA, dA, some dA, some 1000, "alice", observerUser⟩], some []⟩)], [], []⟩

theorem c7_witness :
    (∃ anc, identSub.taxon.ancestors.getLast? = some anc ∧
      (some 500 : Option Nat) = some anc.id ∧
      ∃ entry2, ObjMap.find? stSubDone.processedData anc.id = some entry2 ∧
        SpeciesData.speciesName entry2 = some anc.name) ∧
    (∃ page ∈ [[obsSub]], ∃ obs ∈ page, speciesLevelKeyOf obs 500) :=
  ⟨c7_subspecies_folded.1 [] obsSub 0 identSub emptyAgg stSubDone (some 500) rfl rfl,
   c7_subspecies_folded.2 [[obsSub]] ["alice"] []
     (stSubDone.processedData, []) rfl 500 rfl⟩

/-- C10: when a qualifying identification resolves to a species id that
already has an aggregate entry, the qualifying step leaves the entry's
taxonomy untouched if it is already set (computing it only when it is still
unset) but unconditionally overwrites the entry's `speciesName` with the
newly resolved name. -/
theorem c10_species_name_overwrite (curators taxonsToReturn : List String)
    (obs : Observation) (i : Nat) (ident : Identification) (st st2 : AggState)
    (octid : Option Nat) (ctid : Nat) (name : String) (entry : SpeciesData)
    (hqual : isQualifyingIdentification curators ident = true)
    (hr : resolveSpeciesIdName ident = some (ctid, name))
    (hpre : ObjMap.find? st.processedData ctid = some entry)
    (hok : handleQualifying taxonsToReturn obs i ident st = .ok (st2, octid)) :
    ∃ entry2, ObjMap.find? st2.processedData ctid = some entry2 ∧
      entry2.speciesName = some name ∧
      entry2.taxonomy = (if entry.taxonomy.isSome then entry.taxonomy
        else some (getTaxonomy ident.taxon.ancestors taxonsToReturn)) := by
  obtain ⟨ctid', name', r, hr', hoct, _, _, _, _, entry2, hfind2, hsn, hobs, htax⟩ :=
    handleQualifying_ok taxonsToReturn obs i ident st st2 octid hok
  rw [hr] at hr'
  obtain ⟨hc1, hc2⟩ := Prod.mk.injEq .. |>.mp (Option.some.inj hr')
  subst hc1
  subst hc2
  rw [hpre] at htax
  refine ⟨entry2, hfind2, hsn, ?_⟩
  rw [htax]
  rcases ht : entry.taxonomy with _ | t <;> simp [ht]

def stPre : AggState := ⟨[(100, ⟨some "Old", [], some [("kingdom", "Animalia")]⟩)], [], []⟩

def stPost : AggState :=
  ⟨[(100, ⟨some "Aus oldus",
    [⟨21, none, dA, some dA, some 1000, "alice", observerUser⟩],
    some [("kingdom", "Animalia")]⟩)], [], []⟩

theorem c10_witness :
    ∃ entry2, ObjMap.find? stPost.processedData 100 = some entry2 ∧
      SpeciesData.speciesName entry2 = some "Aus oldus" ∧
      SpeciesData.taxonomy entry2 =
        (if (⟨some "Old", [], some [("kingdom", "Animalia")]⟩ : SpeciesData).taxonomy.isSome then
          (⟨some "Old", [], some [("kingdom", "Animalia")]⟩ : SpeciesData).taxonomy
        else some (getTaxonomy identPlain.taxon.ancestors [])) :=
  c10_species_name_overwrite ["alice"] [] obsOld 0 identPlain stPre stPost (some 100)
    100 "Aus oldus" ⟨some "Old", [], some [("kingdom", "Animalia")]⟩ rfl rfl rfl rfl

/-- C8: after all pages are processed the deprecated-id collector is
deduplicated — `getUniqueItems` keeps exactly the members of its input,
without duplicates, ordered by first occurrence, and maps the empty list to
the empty list — and every taxon id the run collected for removal is absent
as a key from the final aggregate. -/
theorem c8_dedup_and_removal :
    getUniqueItems [] = [] ∧
    (∀ arr : List Nat,
      (getUniqueItems arr).Nodup ∧
      (∀ x, x ∈ getUniqueItems arr ↔ x ∈ arr) ∧
      List.Pairwise (fun x y => arr.indexOf x < arr.indexOf y) (getUniqueItems arr)) ∧
    (∀ (pages : List (List Observation)) (curators taxon : List String)
        (st : AggState) (out : ObjMap Nat SpeciesData × ChangeLedger),
      runAllPages pages curators taxon = .ok st →
      parseDataFiles pages curators taxon = .ok out →
      ∀ taxonId ∈ st.taxonsToRemove, ObjMap.find? out.1 taxonId = none) := by
  refine ⟨rfl,
    fun arr => ⟨getUniqueItems_nodup arr, getUniqueItems_mem arr, getUniqueItems_pairwise arr⟩,
    ?_⟩
  intro pages curators taxon st out hrun hout taxonId hmem
  rw [parseDataFiles_of_run_ok pages curators taxon st hrun] at hout
  rw [← Except.ok.inj hout]
  have hgoal : ObjMap.find? ((getUniqueItems st.taxonsToRemove).foldl
      (fun m tid => ObjMap.erase m tid) st.processedData) taxonId = none := by
    rw [ObjMap.find?_foldl_erase,
      if_pos ((getUniqueItems_mem st.taxonsToRemove taxonId).mpr hmem)]
  exact hgoal

def stRunFull : AggState :=
  ⟨[(100, ⟨some "Aus oldus",
      [⟨21, none, dA, some dA, some 1000, "alice", observerUser⟩], some []⟩),
    (101, ⟨some "Aus novus",
      [⟨22, none, dB, some dA, some 1000, "alice", observerUser⟩], some []⟩)],
   [100],
   [⟨22, "Aus oldus", "Aus novus", 2021, 900⟩]⟩

def outFull : ObjMap Nat SpeciesData × ChangeLedger :=
  ([(101, ⟨some "Aus novus",
      [⟨22, none, dB, some dA, some 1000, "alice", observerUser⟩], some []⟩)],
   [(2021, [("Aus oldus", ⟨"Aus novus", 900⟩)])])

theorem c8_witness : ObjMap.find? outFull.1 100 = none :=
  c8_dedup_and_removal.2.2 [[obsOld, obsSwapLater]] ["alice"] [] stRunFull outFull
    rfl rfl 100 (by decide)

theorem c5_witness :
    getConfirmationDateAccountingForTaxonChanges 0 obsBad = some .fatal ↔
      ∃ tc, identBad.taxon_change = some tc ∧
        knownTaxonChangeTypes.contains tc.type = false :=
  c5_unknown_type_fatal.1 obsBad 0 identBad rfl

end InatCurated
